import Mathlib

/-!
Shallow embedding of the MiniMidi header-only MIDI library
(src/include/minimidi/MiniMidi.hpp) and proofs about it.

Byte buffers are `List Nat` whose entries denote bytes; every read goes
through `byteAt`, which reduces the stored value mod 256 (memory holds
bytes) and fails with `Err.oobRead` when the index is outside the real
buffer, modelling the undefined behaviour of reading past the allocation.
C++ unsigned arithmetic is translated to `Nat` with explicit reductions:
`x & 0x7F = x % 128`, `x >> k = x / 2^k`, `(x | 0x80)` truncated to a
byte `= 128 + x % 128`, 32-bit wraparound as `% 2^32`.
-/

namespace MiniMidi

/-- Failure outcomes of the embedded code. `invalidHeader`, `unexpectedEof`
and `corrupted` mirror the distinct `std::ios_base::failure` messages the
source throws; `divisionError` mirrors the `std::runtime_error` thrown by
`MidiHeader::ticks_per_quarter` on an SMPTE-division header; `outOfRange`
mirrors `std::out_of_range` from `std::array::at`; `oobRead` and
`undefinedBehavior` mark reads the C++ leaves undefined; `fuelExhausted`
is an artefact of bounding the embedded parse loops (each loop step
advances the cursor, so any fuel above the buffer size is enough). -/
inductive Err where
  | invalidHeader
  | unexpectedEof
  | corrupted
  | oobRead
  | fuelExhausted
  | divisionError
  | outOfRange
  | undefinedBehavior
  deriving DecidableEq

/-- Decidable equality for `Except`, needed to settle concrete runs of the
embedded code by `decide`. -/
instance {ε α : Type} [DecidableEq ε] [DecidableEq α] : DecidableEq (Except ε α) := fun a b =>
  match a, b with
  | .ok x, .ok y =>
    match decEq x y with
    | isTrue h => isTrue (h ▸ rfl)
    | isFalse h => isFalse fun c => h (Except.ok.inj c)
  | .error x, .error y =>
    match decEq x y with
    | isTrue h => isTrue (h ▸ rfl)
    | isFalse h => isFalse fun c => h (Except.error.inj c)
  | .ok _, .error _ => isFalse fun c => Except.noConfusion c
  | .error _, .ok _ => isFalse fun c => Except.noConfusion c

/-- Reads the byte at index `i`; entries are reduced mod 256 (memory holds
bytes), and an index outside the buffer is an out-of-bounds read. -/
def byteAt (buf : List Nat) (i : Nat) : Except Err Nat :=
  match buf[i]? with
  | some b => .ok (b % 256)
  | none => .error .oobRead

/-- Reads `n` consecutive bytes starting at `start`. -/
def readBytes (buf : List Nat) (start n : Nat) : Except Err (List Nat) :=
  match n with
  | 0 => .ok []
  | n + 1 =>
    match byteAt buf start with
    | .error e => .error e
    | .ok b =>
      match readBytes buf (start + 1) n with
      | .error e => .error e
      | .ok rest => .ok (b :: rest)

/-- Embeds `utils::read_variable_length`: the manually unrolled four-step
loop.  Each byte contributes its low 7 bits (`byte & 0x7F = byte % 128`);
a clear high bit (`byte < 128`) stops the loop; the fourth byte's high bit
is ignored.  The `uint32` accumulator `(value << 7) | (byte & 0x7F)` is
`(value * 128 + byte % 128) % 2^32` since the or-operands are disjoint.
Returns the decoded value and the cursor position just past the bytes
consumed. -/
def read_variable_length (buf : List Nat) (pos : Nat) : Except Err (Nat × Nat) :=
  match byteAt buf pos with
  | .error e => .error e
  | .ok b0 =>
    if b0 < 128 then .ok (b0 % 128, pos + 1)
    else
      match byteAt buf (pos + 1) with
      | .error e => .error e
      | .ok b1 =>
        let v1 := ((b0 % 128) * 128 + b1 % 128) % 2 ^ 32
        if b1 < 128 then .ok (v1, pos + 2)
        else
          match byteAt buf (pos + 2) with
          | .error e => .error e
          | .ok b2 =>
            let v2 := (v1 * 128 + b2 % 128) % 2 ^ 32
            if b2 < 128 then .ok (v2, pos + 3)
            else
              match byteAt buf (pos + 3) with
              | .error e => .error e
              | .ok b3 => .ok ((v2 * 128 + b3 % 128) % 2 ^ 32, pos + 4)

/-- Embeds `utils::calc_variable_length`. -/
def calc_variable_length (num : Nat) : Nat :=
  if num < 0x80 then 1
  else if num < 0x4000 then 2
  else if num < 0x200000 then 3
  else 4

/-- Embeds `utils::write_variable_length` (the `container::Bytes` overload),
with the loop over `byteNum = calc_variable_length num` unrolled per case.
A continuation byte `(num >> 7k) | 0x80` stored into a `uint8_t` is
`128 + (num / 2^(7k)) % 128`; the final byte `num & 0x7F` is `num % 128`. -/
def write_variable_length (num : Nat) : List Nat :=
  if num < 0x80 then [num % 128]
  else if num < 0x4000 then [128 + num / 2 ^ 7 % 128, num % 128]
  else if num < 0x200000 then
    [128 + num / 2 ^ 14 % 128, 128 + num / 2 ^ 7 % 128, num % 128]
  else
    [128 + num / 2 ^ 21 % 128, 128 + num / 2 ^ 14 % 128, 128 + num / 2 ^ 7 % 128, num % 128]

/-- Embeds `utils::read_msb_bytes`: big-endian accumulation
`res = res * 256 + byte` over `n` bytes (no truncation occurs for the
`n ≤ 8` uses in the source). -/
def read_msb_bytes (buf : List Nat) (start n : Nat) : Except Err Nat :=
  match readBytes buf start n with
  | .error e => .error e
  | .ok bs => .ok (bs.foldl (fun r b => r * 256 + b) 0)

/-- Embeds `utils::write_msb_bytes`: the low `n` bytes of `value`,
most significant first (`(value >> (n-1-i)*8) & 0xFF`). -/
def write_msb_bytes (value n : Nat) : List Nat :=
  (List.range n).map (fun i => value / 2 ^ ((n - 1 - i) * 8) % 256)

/-- The `MessageType` enum of the source (X-macro `MIDI_MESSAGE_TYPE`). -/
inductive MessageType where
  | Unknown
  | NoteOff
  | NoteOn
  | PolyphonicAfterTouch
  | ControlChange
  | ProgramChange
  | ChannelAfterTouch
  | PitchBend
  | SysExStart
  | QuarterFrame
  | SongPositionPointer
  | SongSelect
  | TuneRequest
  | SysExEnd
  | TimingClock
  | StartSequence
  | ContinueSequence
  | StopSequence
  | ActiveSensing
  | Meta
  deriving DecidableEq, BEq

/-- Embeds `lut::to_msg_type`, i.e. the 256-entry `MESSAGE_TYPE_TABLE` built
by `_generate_message_type_table`: statuses below 0xF0 fill a 16-entry block
per high nibble (0x00..0x0F holds `Unknown`, 0x10..0x7F stays `Unknown`),
statuses at or above 0xF0 are individual entries. -/
def to_msg_type (status : Nat) : MessageType :=
  if status < 0x80 then .Unknown
  else if status ≤ 0x8F then .NoteOff
  else if status ≤ 0x9F then .NoteOn
  else if status ≤ 0xAF then .PolyphonicAfterTouch
  else if status ≤ 0xBF then .ControlChange
  else if status ≤ 0xCF then .ProgramChange
  else if status ≤ 0xDF then .ChannelAfterTouch
  else if status ≤ 0xEF then .PitchBend
  else if status = 0xF0 then .SysExStart
  else if status = 0xF1 then .QuarterFrame
  else if status = 0xF2 then .SongPositionPointer
  else if status = 0xF3 then .SongSelect
  else if status = 0xF6 then .TuneRequest
  else if status = 0xF7 then .SysExEnd
  else if status = 0xF8 then .TimingClock
  else if status = 0xFA then .StartSequence
  else if status = 0xFB then .ContinueSequence
  else if status = 0xFC then .StopSequence
  else if status = 0xFE then .ActiveSensing
  else if status = 0xFF then .Meta
  else .Unknown

/-- Embeds `lut::get_msg_length`: the `MESSAGE_LENGTH` table.  The variable
lengths are stored as `static_cast<uint8_t>(65535) = 255`. -/
def get_msg_length (t : MessageType) : Nat :=
  match t with
  | .Unknown => 255
  | .NoteOff => 3
  | .NoteOn => 3
  | .PolyphonicAfterTouch => 3
  | .ControlChange => 3
  | .ProgramChange => 2
  | .ChannelAfterTouch => 2
  | .PitchBend => 3
  | .SysExStart => 255
  | .QuarterFrame => 2
  | .SongPositionPointer => 3
  | .SongSelect => 2
  | .TuneRequest => 1
  | .SysExEnd => 1
  | .TimingClock => 1
  | .StartSequence => 1
  | .ContinueSequence => 1
  | .StopSequence => 1
  | .ActiveSensing => 1
  | .Meta => 255

/-- A `Message`: absolute tick `time` (a `uint32`), the status byte, and the
payload bytes `m_data` (excluding the status byte). -/
structure Msg where
  time : Nat
  statusByte : Nat
  data : List Nat
  deriving DecidableEq

/-- The mutable state of `details::MessageGenerator`: cursor index,
`prevEventLen`, `tickOffset`, `prevStatusCode` and `foundEOT`. -/
structure GState where
  pos : Nat
  prevEventLen : Nat
  tickOffset : Nat
  prevStatus : Nat
  foundEOT : Bool
  deriving DecidableEq

/-- A fresh generator over a chunk starting at index `pos`
(`MessageGenerator(begin, size)` zero-initialises the other fields). -/
def initGState (pos : Nat) : GState :=
  { pos := pos, prevEventLen := 0, tickOffset := 0, prevStatus := 0, foundEOT := false }

/-- Embeds `MessageGenerator::running_status_msg`: a data byte below 0x80 at
the event position reuses `prevStatus` and consumes `prevEventLen - 1` data
bytes.  `prevEventLen == 0` is the `Corrupted` failure; overshooting
`endIdx` (the chunk end `bufferEnd`) is `UnexpectedEof`. -/
def running_status_msg (buf : List Nat) (endIdx : Nat) (st : GState) (tick p : Nat) :
    Except Err (Option Msg × GState) :=
  if st.prevEventLen = 0 then .error .corrupted
  else if p + st.prevEventLen - 1 > endIdx then .error .unexpectedEof
  else
    match readBytes buf p (st.prevEventLen - 1) with
    | .error e => .error e
    | .ok data =>
      .ok (some ⟨tick, st.prevStatus, data⟩,
        { st with pos := p + st.prevEventLen - 1, tickOffset := tick })

/-- Embeds `MessageGenerator::sysex_msg` (status byte 0xF0 at index `p`):
records 0xF0 as `prevStatus`, reads the VLQ event length after the status
byte, sets `prevEventLen = len + (cursor - prevBuffer)` and emits the event
bytes after the status byte (VLQ length bytes included) as the payload. -/
def sysex_msg (buf : List Nat) (endIdx : Nat) (st : GState) (tick p : Nat) :
    Except Err (Option Msg × GState) :=
  match read_variable_length buf (p + 1) with
  | .error e => .error e
  | .ok (len, p2) =>
    let prevLen := len + (p2 - p)
    if p + prevLen > endIdx then .error .unexpectedEof
    else
      match readBytes buf (p + 1) (prevLen - 1) with
      | .error e => .error e
      | .ok data =>
        .ok (some ⟨tick, 0xF0, data⟩,
          { pos := p + prevLen, prevEventLen := prevLen, tickOffset := tick,
            prevStatus := 0xF0, foundEOT := st.foundEOT })

/-- Embeds `MessageGenerator::meta_msg` (status byte 0xFF at index `p`):
does not touch `prevStatus`/`prevEventLen`; reads the VLQ length after the
meta-type byte.  A meta-type byte of 0x2F (the only byte `lut::to_meta_type`
maps to `EndOfTrack`) sets `foundEOT` and jumps the cursor to the chunk end
without emitting a message; otherwise the payload is the meta-type byte
followed by the VLQ length bytes and the value bytes. -/
def meta_msg (buf : List Nat) (endIdx : Nat) (st : GState) (tick p : Nat) :
    Except Err (Option Msg × GState) :=
  match read_variable_length buf (p + 2) with
  | .error e => .error e
  | .ok (len, p2) =>
    let eventLen := len + (p2 - p)
    if p + eventLen > endIdx then .error .unexpectedEof
    else
      match byteAt buf (p + 1) with
      | .error e => .error e
      | .ok mt =>
        if mt = 0x2F then
          .ok (none, { st with pos := endIdx, foundEOT := true, tickOffset := tick })
        else
          match readBytes buf (p + 1) (eventLen - 1) with
          | .error e => .error e
          | .ok data =>
            .ok (some ⟨tick, 0xFF, data⟩, { st with pos := p + eventLen, tickOffset := tick })

/-- Embeds `MessageGenerator::common_msg` (any other status byte `b ≥ 0x80`
at index `p`): the fixed length comes from the status tables, `prevStatus`
and `prevEventLen` are updated, the cursor advances by the fixed length —
but the payload passed to the message constructor is the constant `2` bytes
after the status byte (`f(tickOffset, curStatusCode, curCursor + 1, 2)`;
the `prevEventLen - 1` version is commented out in the source). -/
def common_msg (buf : List Nat) (endIdx : Nat) (st : GState) (tick p b : Nat) :
    Except Err (Option Msg × GState) :=
  let prevLen := get_msg_length (to_msg_type b)
  if p + prevLen > endIdx then .error .unexpectedEof
  else
    match readBytes buf (p + 1) 2 with
    | .error e => .error e
    | .ok data =>
      .ok (some ⟨tick, b, data⟩,
        { pos := p + prevLen, prevEventLen := prevLen, tickOffset := tick,
          prevStatus := b, foundEOT := st.foundEOT })

/-- Embeds one call of `MessageGenerator::emplace_using`: read the VLQ delta
(updating the 32-bit `tickOffset`), then dispatch on the byte at the cursor:
0xF0 to SysEx, 0xFF to Meta, below 0x80 to running status, otherwise to the
common fixed-length path. -/
def generator_step (buf : List Nat) (endIdx : Nat) (st : GState) :
    Except Err (Option Msg × GState) :=
  match read_variable_length buf st.pos with
  | .error e => .error e
  | .ok (dt, p) =>
    let tick := (st.tickOffset + dt) % 2 ^ 32
    match byteAt buf p with
    | .error e => .error e
    | .ok b =>
      if b = 0xF0 then sysex_msg buf endIdx st tick p
      else if b = 0xFF then meta_msg buf endIdx st tick p
      else if b < 0x80 then running_status_msg buf endIdx st tick p
      else common_msg buf endIdx st tick p b

/-- Embeds the drain loop of `Track::Track(const uint8_t*, size_t)`:
`while (!generator.done()) generator.emplace_using(append)` with
`done() = cursor >= bufferEnd`.  `fuel` bounds the recursion; every
successful step advances the cursor, so any fuel above the chunk size is
enough and `fuelExhausted` is unreachable from the source's call sites. -/
def parseMsgs (buf : List Nat) (endIdx : Nat) (fuel : Nat) (st : GState) :
    Except Err (List Msg) :=
  if st.pos ≥ endIdx then .ok []
  else
    match fuel with
    | 0 => .error .fuelExhausted
    | fuel + 1 =>
      match generator_step buf endIdx st with
      | .error e => .error e
      | .ok (none, st') => parseMsgs buf endIdx fuel st'
      | .ok (some m, st') =>
        match parseMsgs buf endIdx fuel st' with
        | .error e => .error e
        | .ok rest => .ok (m :: rest)

/-- Embeds `Track::Track(const uint8_t* cursor, size_t size)`: drain the
generator over the chunk `[start, start + len)`.  The fuel `len + 1`
suffices because every step advances the cursor by at least one byte. -/
def parseTrack (buf : List Nat) (start len : Nat) : Except Err (List Msg) :=
  parseMsgs buf (start + len) (len + 1) (initGState start)

/-- The four ASCII bytes of `"MTrk"`. -/
def mtrkBytes : List Nat := [77, 84, 114, 107]

/-- The four ASCII bytes of `"MThd"`. -/
def mthdBytes : List Nat := [77, 84, 104, 100]

/-- Embeds the skip loop of `TrackGenerator::parse_chunk_len`: while the
four bytes at the cursor are not `"MTrk"`, read the chunk's 4-byte length,
check `cursor + tmpLen + 8 > bufferEnd` (`UnexpectedEof`), and skip the
chunk.  Returns the index of the `MTrk` chunk header.  `fuel` bounds the
loop; each pass advances the cursor by at least 8 while the bounds check
keeps it at most `endIdx`, so any fuel above `endIdx` is enough. -/
def skipToMTrkAux (buf : List Nat) (endIdx : Nat) : Nat → Nat → Except Err Nat
  | fuel, pos =>
    match readBytes buf pos 4 with
    | .error e => .error e
    | .ok cid =>
      if cid = mtrkBytes then .ok pos
      else
        match read_msb_bytes buf (pos + 4) 4 with
        | .error e => .error e
        | .ok tmpLen =>
          if pos + tmpLen + 8 > endIdx then .error .unexpectedEof
          else
            match fuel with
            | 0 => .error .fuelExhausted
            | fuel + 1 => skipToMTrkAux buf endIdx fuel (pos + 8 + tmpLen)

/-- The skip loop with its (always sufficient) fuel. -/
def skipToMTrk (buf : List Nat) (endIdx pos : Nat) : Except Err Nat :=
  skipToMTrkAux buf endIdx (endIdx + 1) pos

/-- Embeds `TrackGenerator::next`: locate the next `MTrk` chunk, read its
4-byte body length, and yield the `TrackView` `(cursor + 8, chunkLen)`
together with the advanced generator cursor `cursor + 8 + chunkLen`. -/
def nextTrack (buf : List Nat) (endIdx pos : Nat) : Except Err (Nat × Nat × Nat) :=
  match skipToMTrk buf endIdx pos with
  | .error e => .error e
  | .ok mpos =>
    match read_msb_bytes buf (mpos + 4) 4 with
    | .error e => .error e
    | .ok chunkLen => .ok (mpos + 8, chunkLen, mpos + 8 + chunkLen)

/-- Embeds the drain of `MidiFileView::iterator` over
`details::TrackGenerator` with `remaining = trackNum - trackIdx`: tracks
are yielded until `done() = cursor >= bufferEnd || trackIdx >= trackNum`,
i.e. until `remaining = 0` or the cursor reaches the buffer end, and each
`next()` increments `trackIdx` (decrements `remaining`).  Yields the list
of `(start, size)` track views. -/
def tracksFromAux (buf : List Nat) (endIdx : Nat) : Nat → Nat → Except Err (List (Nat × Nat))
  | 0, _ => .ok []
  | remaining + 1, pos =>
    if pos ≥ endIdx then .ok []
    else
      match nextTrack buf endIdx pos with
      | .error e => .error e
      | .ok (s, len, newPos) =>
        match tracksFromAux buf endIdx remaining newPos with
        | .error e => .error e
        | .ok rest => .ok ((s, len) :: rest)

/-- The track-view drain from generator state `(pos, trackIdx)` with the
header's `trackNum`. -/
def tracksFrom (buf : List Nat) (endIdx trackNum pos trackIdx : Nat) :
    Except Err (List (Nat × Nat)) :=
  tracksFromAux buf endIdx (trackNum - trackIdx) pos

/-- The data of `MidiHeader` plus the track count scanned by
`MidiFileView`: format code, the division-type bit, the 15-bit
division payload, and the 2-byte track count. -/
structure FileHeader where
  format : Nat
  divisionType : Nat
  tpq15 : Nat
  trackNum : Nat
  deriving DecidableEq

/-- Embeds `MidiHeader::MidiHeader(const uint8_t*, size_t)` plus the
`trackNum` read in `MidiFileView`'s constructor: file at least 14 bytes,
literal `"MThd"`, chunk length 6, format validated to 0/1/2 by
`read_midiformat` (`InvalidHeader` otherwise), division split as
`divisionType = (b12 & 0x80) >> 7 = b12 / 128` and
`ticksPerQuarter = ((b12 & 0x7F) << 8) + b13 = (b12 % 128) * 256 + b13`. -/
def parseHeader (buf : List Nat) : Except Err FileHeader :=
  if buf.length < 14 then .error .invalidHeader
  else
    match readBytes buf 0 4 with
    | .error e => .error e
    | .ok mthd =>
      if mthd ≠ mthdBytes then .error .invalidHeader
      else
        match read_msb_bytes buf 4 4 with
        | .error e => .error e
        | .ok chunkLen =>
          if chunkLen ≠ 6 then .error .invalidHeader
          else
            match read_msb_bytes buf 8 2 with
            | .error e => .error e
            | .ok fmt =>
              if fmt ≥ 3 then .error .invalidHeader
              else
                match read_msb_bytes buf 10 2, byteAt buf 12, byteAt buf 13 with
                | .ok trackNum, .ok b12, .ok b13 =>
                  .ok ⟨fmt, b12 / 128, (b12 % 128) * 256 + b13, trackNum⟩
                | .error e, _, _ => .error e
                | _, .error e, _ => .error e
                | _, _, .error e => .error e

/-- An owning `MidiFile`: the header fields and the materialised tracks. -/
structure MidiFileRec where
  format : Nat
  divisionType : Nat
  tpq15 : Nat
  tracks : List (List Msg)
  deriving DecidableEq

/-- Embeds `MidiFile::MidiFile(const uint8_t*, size_t)`: parse the header,
scan the track chunks from byte 14, and drain each `TrackView` into an
owning track of messages. -/
def parseMidiFile (buf : List Nat) : Except Err MidiFileRec :=
  match parseHeader buf with
  | .error e => .error e
  | .ok hd =>
    match tracksFrom buf buf.length hd.trackNum 14 0 with
    | .error e => .error e
    | .ok tvs =>
      match tvs.mapM (fun sl => parseTrack buf sl.1 sl.2) with
      | .error e => .error e
      | .ok tracks => .ok ⟨hd.format, hd.divisionType, hd.tpq15, tracks⟩

/-- The filter of `Track::sort`: drop a message when
`type() == Meta && cast<Meta>().meta_type() == EndOfTrack`, i.e. when the
status byte classifies as `Meta` and the first payload byte (the meta-type
byte; `lut::to_meta_type` maps exactly 0x2F to `EndOfTrack`) is 0x2F.
An empty payload makes the C++ read `m_data[0]` out of bounds; it is
modelled as reading 0 (which classifies as `SequenceNumber`). -/
def msgIsEOT (m : Msg) : Bool :=
  to_msg_type m.statusByte == MessageType.Meta && m.data.getD 0 0 == 0x2F

/-- Embeds `Track::sort`: copy all non-EndOfTrack messages, then stably
sort by `time`.  `std::stable_sort` with `lhs.time < rhs.time` (the
`is_sorted` shortcut does not change the result) produces exactly the
stable ascending reorder, which `List.insertionSort` with `≤` computes:
`orderedInsert` places each element before the equal-`time` elements that
followed it, so ties keep their original order. -/
def sortTrack (msgs : List Msg) : List Msg :=
  (msgs.filter (fun m => !(msgIsEOT m))).insertionSort (fun a b => a.time ≤ b.time)

/-- Embeds `MidiFile::sort`: sort every track, keeping the header. -/
def sortMidiFile (f : MidiFileRec) : MidiFileRec :=
  { f with tracks := f.tracks.map sortTrack }

/-- The bytes appended by `utils::write_eot`: delta `VLQ(1)` then
`0xFF 0x2F 0x00`. -/
def eotBytes : List Nat := [1, 0xFF, 0x2F, 0x00]

/-- Unsigned 32-bit subtraction `a - b`, used for the on-the-wire delta
`curTime - prevTime` (both `uint32`). -/
def sub32 (a b : Nat) : Nat := (a % 2 ^ 32 + 2 ^ 32 - b % 2 ^ 32) % 2 ^ 32

/-- Embeds the per-message loop of `MidiFile::to_bytes_sorted` for one
track: write the VLQ delta, write the status byte unless running-status
compression elides it (`curStatus` equal to `prevStatus` and not one of
0xFF/0xF0/0xF7), then the payload bytes verbatim.  `prevTime`/`prevStatus`
start at 0/0x00.  Status and payload bytes are stored into `uint8_t`,
hence the `% 256`. -/
def encodeMsgs : Nat → Nat → List Msg → List Nat
  | _, _, [] => []
  | prevTime, prevStatus, m :: rest =>
    let curStatus := m.statusByte % 256
    let statusOut :=
      if curStatus = 0xFF ∨ curStatus = 0xF0 ∨ curStatus = 0xF7 ∨ curStatus ≠ prevStatus then
        [curStatus]
      else []
    write_variable_length (sub32 m.time prevTime) ++ statusOut ++ m.data.map (· % 256) ++
      encodeMsgs (m.time % 2 ^ 32) curStatus rest

/-- The body of one `MTrk` chunk as written by `to_bytes_sorted`: the
encoded messages followed by the synthetic EndOfTrack of `write_eot`. -/
def trackBody (msgs : List Msg) : List Nat :=
  encodeMsgs 0 0 msgs ++ eotBytes

/-- One full `MTrk` chunk: `"MTrk"`, the 4-byte body length patched in
after writing, then the body. -/
def trackChunk (msgs : List Msg) : List Nat :=
  mtrkBytes ++ write_msb_bytes (trackBody msgs).length 4 ++ trackBody msgs

/-- Embeds `MidiHeader::ticks_per_quarter`: throws
(`std::runtime_error`) unless the division type is ticks-per-quarter. -/
def ticks_per_quarter (f : MidiFileRec) : Except Err Nat :=
  if f.divisionType = 0 then .ok f.tpq15 else .error .divisionError

/-- Embeds `MidiFile::to_bytes_sorted` (it does not sort): the zero-filled
14-byte MThd with `bytes[7] = 6`, `bytes[9] = format`, the 2-byte track
count and the 2-byte division word
`division_type() << 15 | ticks_per_quarter()` — the call to
`ticks_per_quarter()` throws on an SMPTE-division header — followed by one
chunk per track. -/
def to_bytes_sorted (f : MidiFileRec) : Except Err (List Nat) :=
  match ticks_per_quarter f with
  | .error e => .error e
  | .ok tpq =>
    .ok (mthdBytes ++ [0, 0, 0, 6] ++ [0, f.format % 256] ++
      write_msb_bytes f.tracks.length 2 ++
      write_msb_bytes (f.divisionType * 2 ^ 15 + tpq) 2 ++
      (f.tracks.map trackChunk).flatten)

/-- Embeds `MidiFile::to_bytes`: `sort().to_bytes_sorted()`. -/
def to_bytes (f : MidiFileRec) : Except Err (List Nat) :=
  to_bytes_sorted (sortMidiFile f)

/-- The 30 key names of `messages::KeySignature::name`, in source order:
majors at indices 0..14, minors at indices 15..29. -/
def KEYS_NAME : List String :=
  ["bC", "bG", "bD", "bA", "bE", "bB", "F", "C", "G", "D", "A", "E", "B", "#F", "#C",
   "bc", "bg", "bd", "ba", "be", "bb", "f", "c", "g", "d", "a", "e", "b", "#f", "#c"]

/-- Embeds `messages::KeySignature::name`:
`KEYS_NAME.at(key() + 7 + tonality() * 12)` over a
`std::array<const char*, 32>` initialised with the 30 names above (slots
30 and 31 are value-initialised null pointers).  `at` with an index
outside 0..31 throws `std::out_of_range` (a negative `int` index converts
to a huge `size_t`); indices 30 and 31 build a `std::string` from a null
pointer, which is undefined. -/
def keySignatureName (key : Int) (tonality : Nat) : Except Err String :=
  let idx : Int := key + 7 + tonality * 12
  if idx < 0 ∨ 32 ≤ idx then .error .outOfRange
  else
    match KEYS_NAME[idx.toNat]? with
    | some s => .ok s
    | none => .error .undefinedBehavior

/-! Concrete inputs used to settle the claims that fail on the code. -/

/-- A valid SMF file: MThd (format 0, one track, 480 ticks per quarter)
and one MTrk chunk whose 7-byte body is delta 0, ProgramChange on channel
0 to program 5, delta 0, EndOfTrack. -/
def c1Bytes : List Nat :=
  [77, 84, 104, 100, 0, 0, 0, 6, 0, 0, 0, 1, 1, 224, 77, 84, 114, 107, 0, 0, 0, 7,
   0x00, 0xC0, 0x05, 0x00, 0xFF, 0x2F, 0x00]

/-- What decoding `c1Bytes` produces: the ProgramChange message carries two
payload bytes — the program and the next event's delta byte — because
`common_msg` passes the constant 2 as the payload size. -/
def c1File : MidiFileRec := ⟨0, 0, 480, [[⟨0, 192, [5, 0]⟩]]⟩

/-- `to_bytes c1File`: the stolen second payload byte is written back
verbatim, so the ProgramChange event takes 3 bytes on the wire. -/
def c1Out : List Nat :=
  [77, 84, 104, 100, 0, 0, 0, 6, 0, 0, 0, 1, 1, 224, 77, 84, 114, 107, 0, 0, 0, 8,
   0, 192, 5, 0, 1, 255, 47, 0]

/-- Decoding `c1Out`: the extra byte desynchronises the event framing, so
three messages come back instead of one. -/
def c1File2 : MidiFileRec :=
  ⟨0, 0, 480, [[⟨0, 192, [5, 0]⟩, ⟨0, 192, [1]⟩, ⟨16303, 192, [0]⟩]]⟩

/-- `to_bytes c1File2`, which differs from `c1Out`. -/
def c1Out2 : List Nat :=
  [77, 84, 104, 100, 0, 0, 0, 6, 0, 0, 0, 1, 1, 224, 77, 84, 114, 107, 0, 0, 0, 13,
   0, 192, 5, 0, 0, 1, 255, 47, 0, 1, 255, 47, 0]

/-- The 7-byte track body delta 0, ProgramChange (status 0xC0), program 5,
then delta 0 and EndOfTrack. -/
def c2Track : List Nat := [0x00, 0xC0, 0x05, 0x00, 0xFF, 0x2F, 0x00]

/-- A file with one empty track, used against C3 and C5. -/
def c3File : MidiFileRec := ⟨0, 0, 480, [[]]⟩

/-- The encoder output for `c3File`. -/
def c3Out : List Nat :=
  [77, 84, 104, 100, 0, 0, 0, 6, 0, 0, 0, 1, 1, 224, 77, 84, 114, 107, 0, 0, 0, 4,
   1, 255, 47, 0]

/-- A file whose header uses the SMPTE division type. -/
def c5File : MidiFileRec := ⟨0, 1, 480, [[]]⟩

/-- C1: the decode/encode idempotence claim fails on the code.  For the
valid input `c1Bytes`, decoding yields one ProgramChange message, but
re-decoding the encoder's output yields three messages (so the decoded
tracks are not message-equivalent), and encoding the re-decoded file does
not reproduce the encoder's output (the encoder is not a fixed point on
its own output).  Root cause: `common_msg` passes the constant payload
size 2 instead of `prevEventLen - 1`. -/
theorem c1_roundtrip_fails_on_program_change :
    parseMidiFile c1Bytes = .ok c1File ∧ to_bytes c1File = .ok c1Out
    ∧ parseMidiFile c1Out = .ok c1File2 ∧ to_bytes c1File2 = .ok c1Out2
    ∧ c1Out2 ≠ c1Out
    ∧ c1File.tracks.map List.length = [1] ∧ c1File2.tracks.map List.length = [3] :=
  ⟨by decide, by decide, by decide, by decide, by decide, by decide, by decide⟩

/-- C2: on a ProgramChange event (fixed length 2) the generator advances
the cursor by the fixed length (from index 1 to 3) but emits a message
with two payload bytes `[5, 0]` — not the claimed `fixed length - 1 = 1`
bytes — because `common_msg` hands the constant 2 to the message
constructor. -/
theorem c2_program_change_payload :
    generator_step c2Track 7 (initGState 0)
      = .ok (some ⟨0, 0xC0, [0x05, 0x00]⟩,
             { pos := 3, prevEventLen := 2, tickOffset := 0, prevStatus := 0xC0,
               foundEOT := false })
    ∧ get_msg_length (to_msg_type 0xC0) = 2
    ∧ ([0x05, 0x00] : List Nat).length ≠ get_msg_length (to_msg_type 0xC0) - 1 :=
  ⟨by decide, by decide, by decide⟩

/-- C3 counterexample: after `to_bytes` the track body ends with the four
bytes `0x01 0xFF 0x2F 0x00` — `write_eot` writes the delta `VLQ(1)`, not
`0x00` — so the claimed trailing bytes `0x00 0xFF 0x2F 0x00` are wrong. -/
theorem c3_counterexample_eot_delta :
    to_bytes c3File = .ok c3Out
    ∧ c3Out.drop (c3Out.length - 4) = [0x01, 0xFF, 0x2F, 0x00]
    ∧ ([0x01, 0xFF, 0x2F, 0x00] : List Nat) ≠ [0x00, 0xFF, 0x2F, 0x00] :=
  ⟨by decide, by decide, by decide⟩

/-- C5 counterexample: encoding a file with the SMPTE division type fails —
`to_bytes_sorted` calls `MidiHeader::ticks_per_quarter`, which throws
whenever the division type is not ticks-per-quarter — refuting the claim
that the encoder succeeds on every `MidiFile`. -/
theorem c5_counterexample_smpte_division :
    to_bytes c5File = .error .divisionError
    ∧ to_bytes_sorted c5File = .error .divisionError :=
  ⟨by decide, by decide⟩

/-- C6: `KeySignature::name` computes the index with `tonality * 12`, not
the `tonality * 15` the table layout requires (minor names start at index
15).  For the stored key 0 with tonality 1 (C minor) it returns the entry
at index 19, `"be"`, instead of the minor name `"c"` at index 22; and for
tonality 2 (neither 0 nor 1) with key -7 the index is 24, inside the
table, so it returns `"d"` instead of failing with `OutOfRange`. -/
theorem c6_keysignature_name_misindexes :
    keySignatureName 0 1 = .ok "be"
    ∧ KEYS_NAME[22]? = some "c"
    ∧ (Except.ok "be" : Except Err String) ≠ .ok "c"
    ∧ keySignatureName (-7) 2 = .ok "d" :=
  ⟨by decide, by decide, by decide, by decide⟩

/-- C5 amended: the encoder succeeds on every file whose division type is
ticks-per-quarter; the only failure path of `to_bytes`/`to_bytes_sorted`
is the `ticks_per_quarter` call on an SMPTE-division header. -/
theorem c5_encoder_ok_on_tpq_division (f : MidiFileRec) (h : f.divisionType = 0) :
    (∃ bs, to_bytes f = .ok bs) ∧ (∃ bs, to_bytes_sorted f = .ok bs) := by
  have h1 : ticks_per_quarter (sortMidiFile f) = .ok f.tpq15 := by
    simp [ticks_per_quarter, sortMidiFile, h]
  have h2 : ticks_per_quarter f = .ok f.tpq15 := by
    simp [ticks_per_quarter, h]
  exact ⟨⟨_, by rw [to_bytes, to_bytes_sorted, h1]⟩, ⟨_, by rw [to_bytes_sorted, h2]⟩⟩

/-- Witness for `c5_encoder_ok_on_tpq_division` at a concrete file. -/
theorem c5_encoder_ok_on_tpq_division_witness :
    (∃ bs, to_bytes ⟨0, 0, 480, [[]]⟩ = .ok bs)
    ∧ (∃ bs, to_bytes_sorted ⟨0, 0, 480, [[]]⟩ = .ok bs) :=
  c5_encoder_ok_on_tpq_division ⟨0, 0, 480, [[]]⟩ rfl

/-- The track-view drain yields at most `remaining` track views. -/
theorem tracksFromAux_length_le (buf : List Nat) (endIdx : Nat) :
    ∀ remaining pos l, tracksFromAux buf endIdx remaining pos = .ok l → l.length ≤ remaining := by
  intro remaining
  induction remaining with
  | zero => intro pos l h; simp [tracksFromAux] at h; simp [← h]
  | succ n ih =>
    intro pos l h
    rw [tracksFromAux] at h
    split at h
    · cases h; simp
    · split at h
      · cases h
      · split at h
        · cases h
        · rename_i s len newPos rest hrest
          cases h
          simpa using Nat.succ_le_succ (ih _ _ hrest)

/-- C10: iterating the track generator from state `(pos, trackIdx)` yields
at most `trackNum - trackIdx` tracks (so a `MidiFileView`, which starts at
`trackIdx = 0` with the `trackNum` read from MThd bytes 10..11, yields at
most `trackNum`), it yields nothing once `trackIdx` reaches `trackNum`
even if more `MTrk` chunks remain, and it yields nothing (fabricating no
tracks) once the cursor has reached the buffer end. -/
theorem c10_view_yields_at_most_tracknum (buf : List Nat) (endIdx trackNum pos trackIdx : Nat)
    (l : List (Nat × Nat)) (h : tracksFrom buf endIdx trackNum pos trackIdx = .ok l) :
    l.length ≤ trackNum - trackIdx
    ∧ (pos ≥ endIdx → l = [])
    ∧ (trackIdx ≥ trackNum → l = []) := by
  refine ⟨tracksFromAux_length_le buf endIdx _ _ _ h, ?_, ?_⟩
  · intro hp
    unfold tracksFrom at h
    cases hr : trackNum - trackIdx with
    | zero => rw [hr, tracksFromAux] at h; cases h; rfl
    | succ n => rw [hr, tracksFromAux, if_pos hp] at h; cases h; rfl
  · intro hn
    have hz : trackNum - trackIdx = 0 := by omega
    unfold tracksFrom at h
    rw [hz, tracksFromAux] at h
    cases h; rfl

/-- Witness for `c10_view_yields_at_most_tracknum`: a buffer holding two
empty `MTrk` chunks iterated with `trackNum = 1` yields one track view. -/
theorem c10_view_yields_at_most_tracknum_witness :
    ([((8 : Nat), (0 : Nat))].length ≤ 1 - 0)
    ∧ ((0 : Nat) ≥ 16 → [((8 : Nat), (0 : Nat))] = [])
    ∧ ((0 : Nat) ≥ 1 → [((8 : Nat), (0 : Nat))] = []) :=
  c10_view_yields_at_most_tracknum
    [77, 84, 114, 107, 0, 0, 0, 0, 77, 84, 114, 107, 0, 0, 0, 0] 16 1 0 0
    [(8, 0)] (by decide)

/-- C3 amended: for every in-memory track, the encoded body is the message
events followed by the synthetic EndOfTrack, so it ends with the four
bytes `0x01 0xFF 0x2F 0x00` (`write_eot` writes delta `VLQ(1)`), and no
message surviving `Track::sort`'s filter writes an EndOfTrack meta event
(status byte 0xFF with meta-type byte 0x2F): the synthetic one is the only
EndOfTrack event in the chunk.  The hypotheses state that the stored
status and first payload bytes are in byte range, as the C++ `uint8_t`
fields guarantee. -/
theorem c3_track_body_single_eot (msgs : List Msg)
    (hst : ∀ m ∈ msgs, m.statusByte < 256)
    (hd0 : ∀ m ∈ msgs, m.data.getD 0 0 < 256) :
    (trackBody (sortTrack msgs)).drop ((trackBody (sortTrack msgs)).length - 4)
        = [0x01, 0xFF, 0x2F, 0x00]
    ∧ ∀ m ∈ sortTrack msgs, ¬(m.statusByte % 256 = 0xFF ∧ m.data.getD 0 0 % 256 = 0x2F) := by
  constructor
  · rw [trackBody, eotBytes]
    have hl : (encodeMsgs 0 0 (sortTrack msgs) ++ [1, 0xFF, 0x2F, 0x00]).length - 4
        = (encodeMsgs 0 0 (sortTrack msgs)).length := by
      simp
    rw [hl, List.drop_left]
  · intro m hm ⟨hFF, h2F⟩
    have hmem : m ∈ msgs.filter (fun m => !(msgIsEOT m)) := by
      simpa [sortTrack] using (List.mem_insertionSort _).mp hm
    obtain ⟨hmm, hkeep⟩ := List.mem_filter.mp hmem
    have hs : m.statusByte = 0xFF := by
      have := hst m hmm
      omega
    have hd : m.data.getD 0 0 = 0x2F := by
      have := hd0 m hmm
      omega
    rw [msgIsEOT, hs, hd] at hkeep
    revert hkeep
    decide

/-- Witness for `c3_track_body_single_eot`: a NoteOn plus an in-memory
EndOfTrack message; the latter is filtered, the body ends with the
synthetic EndOfTrack. -/
theorem c3_track_body_single_eot_witness :
    ((trackBody (sortTrack [⟨0, 144, [60, 100]⟩, ⟨0, 255, [47, 0]⟩])).drop
        ((trackBody (sortTrack [⟨0, 144, [60, 100]⟩, ⟨0, 255, [47, 0]⟩])).length - 4)
        = [0x01, 0xFF, 0x2F, 0x00])
    ∧ ∀ m ∈ sortTrack [⟨0, 144, [60, 100]⟩, ⟨0, 255, [47, 0]⟩],
        ¬(m.statusByte % 256 = 0xFF ∧ m.data.getD 0 0 % 256 = 0x2F) :=
  c3_track_body_single_eot [⟨0, 144, [60, 100]⟩, ⟨0, 255, [47, 0]⟩]
    (by decide) (by decide)

/-- C8: when the generator parses a Meta event whose meta-type byte is the
EndOfTrack byte 0x2F (and the event passes its bounds check), the step
emits no message and moves to the state with `foundEOT = true` and the
cursor at the chunk end — so the EndOfTrack is never yielded — and from
any state whose cursor is at or past the chunk end the drain loop yields
no further messages, regardless of remaining bytes. -/
theorem c8_eot_halts_generator (buf : List Nat) (endIdx : Nat) (st : GState)
    (dt p len p2 : Nat)
    (hv : read_variable_length buf st.pos = .ok (dt, p))
    (hb : byteAt buf p = .ok 0xFF)
    (hl : read_variable_length buf (p + 2) = .ok (len, p2))
    (hbound : p + (len + (p2 - p)) ≤ endIdx)
    (hmt : byteAt buf (p + 1) = .ok 0x2F) :
    generator_step buf endIdx st
      = .ok (none,
        ⟨endIdx, st.prevEventLen, (st.tickOffset + dt) % 2 ^ 32, st.prevStatus, true⟩)
    ∧ ∀ fuel (st' : GState), st'.pos ≥ endIdx → parseMsgs buf endIdx fuel st' = .ok [] := by
  constructor
  · simp only [generator_step, hv, hb, meta_msg, hl, hmt, reduceIte]
    have hng : ¬ (p + (len + (p2 - p)) > endIdx) := by omega
    rw [if_neg hng, if_neg (by decide)]
  · intro fuel st' hp
    unfold parseMsgs
    rw [if_pos hp]

/-- Witness for `c8_eot_halts_generator` on the 4-byte track body
`00 FF 2F 00`. -/
theorem c8_eot_halts_generator_witness :
    generator_step [0x00, 0xFF, 0x2F, 0x00] 4 (initGState 0)
      = .ok (none, ⟨4, 0, 0, 0, true⟩)
    ∧ ∀ fuel (st' : GState), st'.pos ≥ 4 →
        parseMsgs [0x00, 0xFF, 0x2F, 0x00] 4 fuel st' = .ok [] :=
  c8_eot_halts_generator [0x00, 0xFF, 0x2F, 0x00] 4 (initGState 0) 0 1 0 4
    (by decide) (by decide) (by decide) (by decide) (by decide)


/-- A failed byte read is always the out-of-bounds outcome. -/
theorem byteAt_error_eq (buf : List Nat) (i : Nat) (e : Err)
    (h : byteAt buf i = .error e) : e = .oobRead := by
  unfold byteAt at h
  split at h
  · cases h
  · cases h; rfl

/-- A failed multi-byte read is always the out-of-bounds outcome. -/
theorem readBytes_error_eq (buf : List Nat) :
    ∀ n start e, readBytes buf start n = .error e → e = .oobRead := by
  intro n
  induction n with
  | zero => intro start e h; simp [readBytes] at h
  | succ k ih =>
    intro start e h
    rw [readBytes] at h
    split at h
    · cases h; exact byteAt_error_eq _ _ _ (by assumption)
    · split at h
      · cases h; exact ih _ _ (by assumption)
      · cases h

/-- A failed VLQ read is always the out-of-bounds outcome: the source's
VLQ reader performs no bounds checks of its own. -/
theorem read_variable_length_error_eq (buf : List Nat) (pos : Nat) (e : Err)
    (h : read_variable_length buf pos = .error e) : e = .oobRead := by
  unfold read_variable_length at h
  split at h
  · cases h; exact byteAt_error_eq _ _ _ (by assumption)
  · split at h
    · cases h
    · split at h
      · cases h; exact byteAt_error_eq _ _ _ (by assumption)
      · split at h
        · cases h
        · split at h
          · cases h; exact byteAt_error_eq _ _ _ (by assumption)
          · split at h
            · cases h
            · split at h
              · cases h; exact byteAt_error_eq _ _ _ (by assumption)
              · cases h

/-- The SysEx branch fails only with `UnexpectedEof` or an out-of-bounds
read, never with `Corrupted`. -/
theorem sysex_msg_error_eq (buf : List Nat) (endIdx : Nat) (st : GState) (tick p : Nat) (e : Err)
    (h : sysex_msg buf endIdx st tick p = .error e) :
    e = .oobRead ∨ e = .unexpectedEof := by
  unfold sysex_msg at h
  split at h
  · cases h; exact .inl (read_variable_length_error_eq _ _ _ (by assumption))
  · dsimp only at h
    split at h
    · cases h; exact .inr rfl
    · split at h
      · cases h; exact .inl (readBytes_error_eq _ _ _ _ (by assumption))
      · cases h

/-- The Meta branch fails only with `UnexpectedEof` or an out-of-bounds
read, never with `Corrupted`. -/
theorem meta_msg_error_eq (buf : List Nat) (endIdx : Nat) (st : GState) (tick p : Nat) (e : Err)
    (h : meta_msg buf endIdx st tick p = .error e) :
    e = .oobRead ∨ e = .unexpectedEof := by
  unfold meta_msg at h
  split at h
  · cases h; exact .inl (read_variable_length_error_eq _ _ _ (by assumption))
  · dsimp only at h
    split at h
    · cases h; exact .inr rfl
    · split at h
      · cases h; exact .inl (byteAt_error_eq _ _ _ (by assumption))
      · split at h
        · cases h
        · split at h
          · cases h; exact .inl (readBytes_error_eq _ _ _ _ (by assumption))
          · cases h

/-- The fixed-length branch fails only with `UnexpectedEof` or an
out-of-bounds read, never with `Corrupted`. -/
theorem common_msg_error_eq (buf : List Nat) (endIdx : Nat) (st : GState) (tick p b : Nat) (e : Err)
    (h : common_msg buf endIdx st tick p b = .error e) :
    e = .oobRead ∨ e = .unexpectedEof := by
  unfold common_msg at h
  dsimp only at h
  split at h
  · cases h; exact .inr rfl
  · split at h
    · cases h; exact .inl (readBytes_error_eq _ _ _ _ (by assumption))
    · cases h

/-- The running-status branch raises `Corrupted` exactly when no prior
status-bearing event has set `prevEventLen`. -/
theorem running_status_msg_corrupted_iff (buf : List Nat) (endIdx : Nat) (st : GState)
    (tick p : Nat) :
    running_status_msg buf endIdx st tick p = .error .corrupted ↔ st.prevEventLen = 0 := by
  constructor
  · intro h
    unfold running_status_msg at h
    split at h
    · assumption
    · split at h
      · cases h
      · split at h
        · cases h
          have := readBytes_error_eq buf (st.prevEventLen - 1) p _ (by assumption)
          cases this
        · cases h
  · intro h
    unfold running_status_msg
    rw [if_pos h]

/-- A successful SysEx step records 0xF0 as the running status. -/
theorem sysex_msg_sets_prevStatus (buf : List Nat) (endIdx : Nat) (st : GState) (tick p : Nat)
    (om : Option Msg) (st' : GState)
    (h : sysex_msg buf endIdx st tick p = .ok (om, st')) : st'.prevStatus = 0xF0 := by
  unfold sysex_msg at h
  split at h
  · cases h
  · dsimp only at h
    split at h
    · cases h
    · split at h
      · cases h
      · cases h; rfl

/-- A successful fixed-length step records its status byte as the running
status (for a system-common byte this overwrites any earlier voice
status). -/
theorem common_msg_sets_prevStatus (buf : List Nat) (endIdx : Nat) (st : GState) (tick p b : Nat)
    (om : Option Msg) (st' : GState)
    (h : common_msg buf endIdx st tick p b = .ok (om, st')) : st'.prevStatus = b := by
  unfold common_msg at h
  dsimp only at h
  split at h
  · cases h
  · split at h
    · cases h
    · cases h; rfl

/-- A successful Meta step leaves the running-status registers
(`prevStatus`, `prevEventLen`) untouched. -/
theorem meta_msg_preserves_running_status (buf : List Nat) (endIdx : Nat) (st : GState)
    (tick p : Nat) (om : Option Msg) (st' : GState)
    (h : meta_msg buf endIdx st tick p = .ok (om, st')) :
    st'.prevStatus = st.prevStatus ∧ st'.prevEventLen = st.prevEventLen := by
  unfold meta_msg at h
  split at h
  · cases h
  · dsimp only at h
    split at h
    · cases h
    · split at h
      · cases h
      · split at h
        · cases h; exact ⟨rfl, rfl⟩
        · split at h
          · cases h
          · cases h; exact ⟨rfl, rfl⟩

/-- A successful running-status step emits a message carrying exactly the
stored `prevStatus` and keeps it. -/
theorem running_status_msg_reuses_prevStatus (buf : List Nat) (endIdx : Nat) (st : GState)
    (tick p : Nat) (m : Msg) (st' : GState)
    (h : running_status_msg buf endIdx st tick p = .ok (some m, st')) :
    m.statusByte = st.prevStatus ∧ st'.prevStatus = st.prevStatus := by
  unfold running_status_msg at h
  split at h
  · cases h
  · split at h
    · cases h
    · split at h
      · cases h
      · cases h; exact ⟨rfl, rfl⟩

/-- C4: the running-status state machine.  After a step whose classifying
byte is SysEx (0xF0) or any other system byte 0xF1..0xFE, `prevStatus` is
that byte — at least 0xF0, so a following data byte below 0x80 can never
be parsed as a continuation reusing an earlier voice status (a
running-status step emits exactly `prevStatus`, by the third part).  A
Meta step (0xFF) leaves both `prevStatus` and `prevEventLen` unchanged,
so running status still reuses the voice status from before the Meta
event. -/
theorem c4_running_status_transitions (buf : List Nat) (endIdx : Nat) (st : GState)
    (dt p b : Nat)
    (hv : read_variable_length buf st.pos = .ok (dt, p))
    (hb : byteAt buf p = .ok b) :
    (b = 0xF0 ∨ (0xF1 ≤ b ∧ b ≤ 0xFE) →
      ∀ om st', generator_step buf endIdx st = .ok (om, st') →
        st'.prevStatus = b ∧ 0xF0 ≤ st'.prevStatus)
    ∧ (b = 0xFF →
      ∀ om st', generator_step buf endIdx st = .ok (om, st') →
        st'.prevStatus = st.prevStatus ∧ st'.prevEventLen = st.prevEventLen)
    ∧ (b < 0x80 →
      ∀ m st', generator_step buf endIdx st = .ok (some m, st') →
        m.statusByte = st.prevStatus ∧ st'.prevStatus = st.prevStatus) := by
  have hd : generator_step buf endIdx st =
      (if b = 0xF0 then sysex_msg buf endIdx st ((st.tickOffset + dt) % 2 ^ 32) p
       else if b = 0xFF then meta_msg buf endIdx st ((st.tickOffset + dt) % 2 ^ 32) p
       else if b < 0x80 then running_status_msg buf endIdx st ((st.tickOffset + dt) % 2 ^ 32) p
       else common_msg buf endIdx st ((st.tickOffset + dt) % 2 ^ 32) p b) := by
    simp only [generator_step, hv, hb]
  refine ⟨?_, ?_, ?_⟩
  · rintro (rfl | ⟨hlo, hhi⟩) om st' hstep
    · rw [hd, if_pos rfl] at hstep
      have hps := sysex_msg_sets_prevStatus _ _ _ _ _ _ _ hstep
      exact ⟨hps, by omega⟩
    · rw [hd, if_neg (by omega), if_neg (by omega), if_neg (by omega)] at hstep
      have hps := common_msg_sets_prevStatus _ _ _ _ _ _ _ _ hstep
      exact ⟨hps, by omega⟩
  · rintro rfl om st' hstep
    rw [hd, if_neg (by decide), if_pos rfl] at hstep
    exact meta_msg_preserves_running_status _ _ _ _ _ _ _ hstep
  · rintro hlt m st' hstep
    rw [hd, if_neg (by omega), if_neg (by omega), if_pos hlt] at hstep
    exact running_status_msg_reuses_prevStatus _ _ _ _ _ _ _ hstep

/-- C7: a generator step fails with `Corrupted` exactly when the byte
after the delta is a data byte below 0x80 (running status) while
`prevEventLen = 0`; no other path of the step raises `Corrupted`. -/
theorem c7_corrupted_iff (buf : List Nat) (endIdx : Nat) (st : GState) :
    generator_step buf endIdx st = .error .corrupted ↔
      ∃ dt p b, read_variable_length buf st.pos = .ok (dt, p) ∧ byteAt buf p = .ok b
        ∧ b < 0x80 ∧ st.prevEventLen = 0 := by
  constructor
  · intro h
    unfold generator_step at h
    split at h
    · cases h
      have he := read_variable_length_error_eq buf st.pos _ (by assumption)
      exact Err.noConfusion he
    · rename_i pr dt p heq1
      dsimp only at h
      split at h
      · cases h
        have he := byteAt_error_eq buf p _ (by assumption)
        exact Err.noConfusion he
      · rename_i b heq2
        split at h
        · rcases sysex_msg_error_eq _ _ _ _ _ _ h with h1 | h1 <;> exact Err.noConfusion h1
        · split at h
          · rcases meta_msg_error_eq _ _ _ _ _ _ h with h1 | h1 <;> exact Err.noConfusion h1
          · split at h
            · rename_i hne1 hne2 hlt
              exact ⟨dt, p, b, heq1, heq2, hlt,
                (running_status_msg_corrupted_iff _ _ _ _ _).mp h⟩
            · rcases common_msg_error_eq _ _ _ _ _ _ _ h with h1 | h1 <;> exact Err.noConfusion h1
  · rintro ⟨dt, p, b, hv, hb, hlt, hz⟩
    simp only [generator_step, hv, hb]
    rw [if_neg (by omega), if_neg (by omega), if_pos hlt]
    exact (running_status_msg_corrupted_iff _ _ _ _ _).mpr hz

/-- Witness for `c4_running_status_transitions` at the SysEx byte 0xF0 of
the track body `00 F0 01 AB`. -/
theorem c4_running_status_transitions_witness :
    ((240 : Nat) = 0xF0 ∨ (0xF1 ≤ (240 : Nat) ∧ (240 : Nat) ≤ 0xFE) →
      ∀ om st', generator_step [0, 240, 1, 171] 4 (initGState 0) = .ok (om, st') →
        st'.prevStatus = 240 ∧ 0xF0 ≤ st'.prevStatus)
    ∧ ((240 : Nat) = 0xFF →
      ∀ om st', generator_step [0, 240, 1, 171] 4 (initGState 0) = .ok (om, st') →
        st'.prevStatus = (initGState 0).prevStatus
        ∧ st'.prevEventLen = (initGState 0).prevEventLen)
    ∧ ((240 : Nat) < 0x80 →
      ∀ m st', generator_step [0, 240, 1, 171] 4 (initGState 0) = .ok (some m, st') →
        m.statusByte = (initGState 0).prevStatus
        ∧ st'.prevStatus = (initGState 0).prevStatus) :=
  c4_running_status_transitions [0, 240, 1, 171] 4 (initGState 0) 0 1 240
    (by decide) (by decide)


/-- Reading index 0 of a non-empty buffer yields its head byte. -/
theorem byteAt_cons_zero (a : Nat) (l : List Nat) : byteAt (a :: l) 0 = .ok (a % 256) := by
  unfold byteAt
  simp

/-- Reading past the head steps into the tail. -/
theorem byteAt_cons_succ (a : Nat) (l : List Nat) (i : Nat) :
    byteAt (a :: l) (i + 1) = byteAt l i := by
  unfold byteAt
  simp

/-- C9: VLQ round-trip.  For every value up to 0x0FFFFFFF, reading back
what `write_variable_length` wrote returns exactly the value and consumes
exactly the bytes written — `calc_variable_length v` of them: 1 below
0x80, 2 below 0x4000, 3 below 0x200000, else 4 — leaving any following
bytes untouched. -/
theorem c9_vlq_roundtrip (v : Nat) (hv : v ≤ 0x0FFFFFFF) (rest : List Nat) :
    read_variable_length (write_variable_length v ++ rest) 0
      = .ok (v, calc_variable_length v)
    ∧ (write_variable_length v).length = calc_variable_length v
    ∧ (v < 0x80 → calc_variable_length v = 1)
    ∧ (0x80 ≤ v → v < 0x4000 → calc_variable_length v = 2)
    ∧ (0x4000 ≤ v → v < 0x200000 → calc_variable_length v = 3)
    ∧ (0x200000 ≤ v → calc_variable_length v = 4) := by
  have p7 : (2 : Nat) ^ 7 = 128 := by norm_num
  have p14 : (2 : Nat) ^ 14 = 16384 := by norm_num
  have p21 : (2 : Nat) ^ 21 = 2097152 := by norm_num
  have p32 : (2 : Nat) ^ 32 = 4294967296 := by norm_num
  rcases Nat.lt_or_ge v 0x80 with h1 | h1
  · have hw : write_variable_length v = [v % 128] := by
      unfold write_variable_length
      rw [if_pos (by omega)]
    have hc : calc_variable_length v = 1 := by
      unfold calc_variable_length
      rw [if_pos (by omega)]
    refine ⟨?_, by rw [hw, hc]; rfl, fun _ => hc, fun ha _ => by omega, fun ha _ => by omega,
      fun ha => by omega⟩
    rw [hw, hc]
    simp only [List.cons_append, List.nil_append]
    have e0 : v % 128 % 256 = v % 128 := Nat.mod_eq_of_lt (by omega)
    simp only [read_variable_length, byteAt_cons_zero, e0]
    rw [if_pos (by omega)]
    simp only [Except.ok.injEq, Prod.mk.injEq, and_true]
    omega
  · rcases Nat.lt_or_ge v 0x4000 with h2 | h2
    · have hw : write_variable_length v = [128 + v / 2 ^ 7 % 128, v % 128] := by
        unfold write_variable_length
        rw [if_neg (by omega), if_pos (by omega)]
      have hc : calc_variable_length v = 2 := by
        unfold calc_variable_length
        rw [if_neg (by omega), if_pos (by omega)]
      refine ⟨?_, by rw [hw, hc]; rfl, fun ha => by omega, fun _ _ => hc,
        fun ha _ => by omega, fun ha => by omega⟩
      rw [hw, hc]
      simp only [List.cons_append, List.nil_append]
      have e0 : (128 + v / 2 ^ 7 % 128) % 256 = 128 + v / 2 ^ 7 % 128 :=
        Nat.mod_eq_of_lt (by omega)
      have e1 : v % 128 % 256 = v % 128 := Nat.mod_eq_of_lt (by omega)
      simp only [read_variable_length, byteAt_cons_zero, byteAt_cons_succ, e0, e1]
      rw [if_neg (by omega), if_pos (by omega)]
      simp only [Except.ok.injEq, Prod.mk.injEq, and_true]
      rw [p7, p32]
      omega
    · rcases Nat.lt_or_ge v 0x200000 with h3 | h3
      · have hw : write_variable_length v
            = [128 + v / 2 ^ 14 % 128, 128 + v / 2 ^ 7 % 128, v % 128] := by
          unfold write_variable_length
          rw [if_neg (by omega), if_neg (by omega), if_pos (by omega)]
        have hc : calc_variable_length v = 3 := by
          unfold calc_variable_length
          rw [if_neg (by omega), if_neg (by omega), if_pos (by omega)]
        refine ⟨?_, by rw [hw, hc]; rfl, fun ha => by omega, fun _ ha => by omega,
          fun _ _ => hc, fun ha => by omega⟩
        rw [hw, hc]
        simp only [List.cons_append, List.nil_append]
        have e0 : (128 + v / 2 ^ 14 % 128) % 256 = 128 + v / 2 ^ 14 % 128 :=
          Nat.mod_eq_of_lt (by omega)
        have e1 : (128 + v / 2 ^ 7 % 128) % 256 = 128 + v / 2 ^ 7 % 128 :=
          Nat.mod_eq_of_lt (by omega)
        have e2 : v % 128 % 256 = v % 128 := Nat.mod_eq_of_lt (by omega)
        simp only [read_variable_length, byteAt_cons_zero, byteAt_cons_succ, e0, e1, e2]
        rw [if_neg (by omega), if_neg (by omega), if_pos (by omega)]
        simp only [Except.ok.injEq, Prod.mk.injEq, and_true]
        rw [p7, p14, p32]
        omega
      · have hw : write_variable_length v
            = [128 + v / 2 ^ 21 % 128, 128 + v / 2 ^ 14 % 128, 128 + v / 2 ^ 7 % 128,
               v % 128] := by
          unfold write_variable_length
          rw [if_neg (by omega), if_neg (by omega), if_neg (by omega)]
        have hc : calc_variable_length v = 4 := by
          unfold calc_variable_length
          rw [if_neg (by omega), if_neg (by omega), if_neg (by omega)]
        refine ⟨?_, by rw [hw, hc]; rfl, fun ha => by omega, fun _ ha => by omega,
          fun _ ha => by omega, fun _ => hc⟩
        rw [hw, hc]
        simp only [List.cons_append, List.nil_append]
        have e0 : (128 + v / 2 ^ 21 % 128) % 256 = 128 + v / 2 ^ 21 % 128 :=
          Nat.mod_eq_of_lt (by omega)
        have e1 : (128 + v / 2 ^ 14 % 128) % 256 = 128 + v / 2 ^ 14 % 128 :=
          Nat.mod_eq_of_lt (by omega)
        have e2 : (128 + v / 2 ^ 7 % 128) % 256 = 128 + v / 2 ^ 7 % 128 :=
          Nat.mod_eq_of_lt (by omega)
        have e3 : v % 128 % 256 = v % 128 := Nat.mod_eq_of_lt (by omega)
        simp only [read_variable_length, byteAt_cons_zero, byteAt_cons_succ, e0, e1, e2, e3]
        rw [if_neg (by omega), if_neg (by omega), if_neg (by omega)]
        simp only [Except.ok.injEq, Prod.mk.injEq, and_true]
        rw [p7, p14, p21, p32]
        omega

/-- Witness for `c9_vlq_roundtrip` at the two-byte value 200 with a
trailing byte. -/
theorem c9_vlq_roundtrip_witness :
    read_variable_length (write_variable_length 200 ++ [7]) 0
      = .ok (200, calc_variable_length 200)
    ∧ (write_variable_length 200).length = calc_variable_length 200
    ∧ ((200 : Nat) < 0x80 → calc_variable_length 200 = 1)
    ∧ (0x80 ≤ (200 : Nat) → (200 : Nat) < 0x4000 → calc_variable_length 200 = 2)
    ∧ (0x4000 ≤ (200 : Nat) → (200 : Nat) < 0x200000 → calc_variable_length 200 = 3)
    ∧ (0x200000 ≤ (200 : Nat) → calc_variable_length 200 = 4) :=
  c9_vlq_roundtrip 200 (by decide) [7]

end MiniMidi
